import Mathlib

/-!
Verification of the Monte-Carlo options pricing simulator.

This file is a shallow embedding of the engine's source into Lean 4:

* `JNum` models JavaScript IEEE-754 doubles over exact reals — a value is
  finite, a signed infinity, or NaN.  It is used exactly where the claims
  hinge on JavaScript numeric edge cases (`Math.sqrt` of a negative number,
  division by zero, `undefined` entering arithmetic, object-to-number
  coercion); everywhere else the model works over plain reals.
* `MCConfig`, `AsianOption`, `BarrierOption`, `LookbackOption` mirror the
  constructed simulation objects of `MonteCarloSimulation.js`,
  `AsianOption.js`, `BarrierOption.js` and `LookbackOption.js`.
* `Math.random()` is modelled as an ambient stream `u : ℕ → ℝ` of uniform
  draws together with a cursor that each sampling call advances; this makes
  the order and number of draws consumed by the code explicit.
-/

noncomputable section

/-- JavaScript double abstracted over exact reals: a finite value `fin x`,
a signed infinity (`inf true` is negative infinity), or NaN.  `undefined`
coerces to NaN in JavaScript arithmetic and is represented as `nan` once it
reaches a numeric context. -/
inductive JNum where
  | fin (x : ℝ)
  | inf (neg : Bool)
  | nan
deriving DecidableEq

namespace JNum

/-- JavaScript unary minus. -/
def jsNeg : JNum → JNum
  | fin x => fin (-x)
  | inf s => inf (!s)
  | nan => nan

/-- JavaScript `+` on numbers: NaN propagates; infinities of opposite sign
cancel to NaN. -/
def jsAdd : JNum → JNum → JNum
  | nan, _ => nan
  | _, nan => nan
  | fin a, fin b => fin (a + b)
  | inf s, fin _ => inf s
  | fin _, inf s => inf s
  | inf s, inf t => if s = t then inf s else nan

/-- JavaScript `-` on numbers. -/
def jsSub (a b : JNum) : JNum := jsAdd a (jsNeg b)

/-- JavaScript `*` on numbers: NaN propagates; `±∞ * 0` is NaN; otherwise
infinities keep the product's sign. -/
def jsMul : JNum → JNum → JNum
  | nan, _ => nan
  | _, nan => nan
  | fin a, fin b => fin (a * b)
  | inf s, fin b => if b = 0 then nan else inf (s ≠ decide (b < 0))
  | fin a, inf s => if a = 0 then nan else inf (s ≠ decide (a < 0))
  | inf s, inf t => inf (s ≠ t)

/-- JavaScript `/` on numbers: `x / 0` is `±∞` for finite nonzero `x`
(JavaScript's literal `0` is `+0`), `0 / 0` is NaN, and NaN propagates. -/
def jsDiv : JNum → JNum → JNum
  | nan, _ => nan
  | _, nan => nan
  | fin a, fin b =>
      if b = 0 then (if a = 0 then nan else inf (decide (a < 0))) else fin (a / b)
  | fin _, inf _ => fin 0
  | inf s, fin b => if b = 0 then inf s else inf (s ≠ decide (b < 0))
  | inf _, inf _ => nan

/-- JavaScript `Math.sqrt`: NaN on negative (and NaN) input. -/
def jsSqrt : JNum → JNum
  | fin a => if a < 0 then nan else fin (Real.sqrt a)
  | inf s => if s then nan else inf false
  | nan => nan

/-- JavaScript `<=` comparison as a boolean: any comparison involving NaN is
`false`. -/
def jsLe : JNum → JNum → Bool
  | nan, _ => false
  | _, nan => false
  | fin a, fin b => decide (a ≤ b)
  | inf s, fin _ => s
  | fin _, inf s => !s
  | inf s, inf t => s || !t

/-- Whether the value is an ordinary finite number. -/
def isFinite : JNum → Bool
  | fin _ => true
  | inf _ => false
  | nan => false

end JNum

/-- Option type flag (`this.type`), `'call'` or `'put'`. -/
inductive OptType where
  | call
  | put
deriving DecidableEq

/-- Averaging mode of an Asian option (`this.averageType`). -/
inductive AvgType where
  | arithmetic
  | geometric
deriving DecidableEq

/-- Lookback strike mode (`this.lookbackType`). -/
inductive LookType where
  | fixed
  | floating
deriving DecidableEq

/-- The four barrier-type strings `'up-and-out'`, `'up-and-in'`,
`'down-and-out'`, `'down-and-in'` used by `BarrierOption.js`; the code
branches on `startsWith('up')` and `endsWith('out')`. -/
inductive BarrierType where
  | upOut
  | upIn
  | downOut
  | downIn
deriving DecidableEq

/-- `barrierType.startsWith('up')`. -/
def BarrierType.isUp : BarrierType → Bool
  | upOut => true
  | upIn => true
  | downOut => false
  | downIn => false

/-- `barrierType.endsWith('out')`. -/
def BarrierType.isOut : BarrierType → Bool
  | upOut => true
  | upIn => false
  | downOut => true
  | downIn => false

/-- A constructed `MonteCarloSimulation` instance: the fields set by the
constructor of `MonteCarloSimulation.js` from the parameter object
`{spot, strike, volatility, riskFreeRate, maturity, steps, simulations,
useAntithetic, useStratified, jumpDiffusion, type}`. -/
structure MCConfig where
  S0 : ℝ
  K : ℝ
  sigma : ℝ
  r : ℝ
  T : ℝ
  steps : ℕ
  simulations : ℕ
  useAntithetic : Bool := true
  useStratified : Bool := true
  jumpDiffusion : Bool := false
  type : OptType := OptType.call

/-- `this.dt = this.T / this.steps`. -/
def MCConfig.dt (c : MCConfig) : ℝ := c.T / (c.steps : ℝ)

/-- Arithmetic mean of a list of reals: `xs.reduce((a, b) => a + b) /
xs.length` (the source only ever evaluates this on non-empty lists, where
`reduce` without an initial value is their sum). -/
def listMean (xs : List ℝ) : ℝ := xs.sum / (xs.length : ℝ)

/-- The `{mean, lower, upper}` record returned by
`calculateConfidenceInterval`. -/
structure ConfidenceInterval where
  mean : ℝ
  lower : ℝ
  upper : ℝ

/-- `MonteCarloSimulation.calculateConfidenceInterval`: sample mean, sample
variance with an `n − 1` denominator, standard error, and a 95% normal
interval `mean ± 1.96·stderr`. -/
def calculateConfidenceInterval (prices : List ℝ) : ConfidenceInterval :=
  let mean := listMean prices
  let variance := (prices.map (fun b => (b - mean) ^ 2)).sum / ((prices.length : ℝ) - 1)
  let stderr := Real.sqrt (variance / (prices.length : ℝ))
  let ci95 := 1.96 * stderr
  { mean := mean, lower := mean - ci95, upper := mean + ci95 }

/-- The `{price, confidence, paths, payoffs}` object returned by every
`calculatePrice` variant; `payoffs` holds the discounted payoffs. -/
structure PricingResult where
  price : ℝ
  confidence : ConfidenceInterval
  paths : List (List ℝ)
  payoffs : List ℝ

/-- Shared tail of every `calculatePrice` body: discount the per-path
payoffs by `e^{-rT}`, average them for the price, and build the confidence
interval from the discounted payoffs. -/
def presentValueResult (r T : ℝ) (payoffs : List ℝ) (paths : List (List ℝ)) :
    PricingResult :=
  let price := listMean payoffs * Real.exp (-(r * T))
  let discounted := payoffs.map (fun p => p * Real.exp (-(r * T)))
  { price := price
    confidence := calculateConfidenceInterval discounted
    paths := paths
    payoffs := discounted }

/-- Per-path payoff of `MonteCarloSimulation.calculatePrice`: the vanilla
European payoff on the terminal price `path[path.length - 1]`. -/
def vanillaPayoff (typ : OptType) (K : ℝ) (path : List ℝ) : ℝ :=
  let finalPrice := path.getLastD 0
  match typ with
  | OptType.call => max (finalPrice - K) 0
  | OptType.put => max (K - finalPrice) 0

namespace MonteCarloSimulation

/-- `MonteCarloSimulation.calculatePrice` on a given path set. -/
def calculatePrice (c : MCConfig) (paths : List (List ℝ)) : PricingResult :=
  presentValueResult c.r c.T (paths.map (vanillaPayoff c.type c.K)) paths

/-- `MonteCarloSimulation.normalInverse`: Acklam's rational approximation of
the inverse standard-normal CDF, with its three regions
`p < 0.02425`, middle, `p > 0.97575` and their coefficient sets, translated
verbatim from the source. -/
def normalInverse (p : ℝ) : ℝ :=
  let a1 : ℝ := -39.6968302866538
  let a2 : ℝ := 220.946098424521
  let a3 : ℝ := -275.928510446969
  let a4 : ℝ := 138.357751867269
  let a5 : ℝ := -30.6647980661472
  let a6 : ℝ := 2.50662827745924
  let b1 : ℝ := -54.4760987982241
  let b2 : ℝ := 161.585836858041
  let b3 : ℝ := -155.698979859887
  let b4 : ℝ := 66.8013118877197
  let b5 : ℝ := -13.2806815528857
  let c1 : ℝ := -7.78489400243029E-03
  let c2 : ℝ := -0.322396458041136
  let c3 : ℝ := -2.40075827716184
  let c4 : ℝ := -2.54973253934373
  let c5 : ℝ := 4.37466414146497
  let c6 : ℝ := 2.93816398269878
  let d1 : ℝ := 7.78469570904146E-03
  let d2 : ℝ := 0.32246712907004
  let d3 : ℝ := 2.445134137143
  let d4 : ℝ := 3.75440866190742
  let p_low : ℝ := 0.02425
  let p_high : ℝ := 1 - p_low
  if p < p_low then
    let q := Real.sqrt (-2 * Real.log p)
    (((((c1 * q + c2) * q + c3) * q + c4) * q + c5) * q + c6) /
      ((((d1 * q + d2) * q + d3) * q + d4) * q + 1)
  else if p ≤ p_high then
    let q := p - 0.5
    let rr := q * q
    (((((a1 * rr + a2) * rr + a3) * rr + a4) * rr + a5) * rr + a6) * q /
      (((((b1 * rr + b2) * rr + b3) * rr + b4) * rr + b5) * rr + 1)
  else
    let q := Real.sqrt (-2 * Real.log (1 - p))
    Neg.neg ((((((c1 * q + c2) * q + c3) * q + c4) * q + c5) * q + c6) /
      ((((d1 * q + d2) * q + d3) * q + d4) * q + 1))

/-- The effective draw count of `generateRandomNumbers`:
`Math.ceil(this.simulations / 2)` when antithetic variates are on (in `ℕ`,
`⌈m/2⌉ = (m + 1) / 2`), the full `simulations` otherwise. -/
def effectiveSimulations (c : MCConfig) : ℕ :=
  if c.useAntithetic then (c.simulations + 1) / 2 else c.simulations

/-- The effective draws `z` built by the first half of
`generateRandomNumbers`, before the antithetic doubling.  `u` is the
`Math.random()` stream and `s` the cursor of the next unconsumed uniform;
the i-th draw consumes `u (s + i)`. -/
def effectiveDraws (c : MCConfig) (u : ℕ → ℝ) (s : ℕ) : List ℝ :=
  let e := effectiveSimulations c
  if c.useStratified then
    (List.range e).map (fun (i : ℕ) => normalInverse (((i : ℝ) + u (s + i)) / (e : ℝ)))
  else
    (List.range e).map (fun (i : ℕ) => normalInverse (u (s + i)))

/-- `MonteCarloSimulation.generateRandomNumbers`: returns the draws together
with the advanced `Math.random()` cursor.  With antithetic variates the
draw list is concatenated with its negation and truncated
(`[...z, ...antithetic].slice(0, this.simulations)`). -/
def generateRandomNumbers (c : MCConfig) (u : ℕ → ℝ) (s : ℕ) : List ℝ × ℕ :=
  let z := effectiveDraws c u s
  let out := if c.useAntithetic then
      (z ++ z.map (fun x => -x)).take c.simulations
    else z
  (out, s + effectiveSimulations c)

/-- One step of the inner loop of `simulatePaths`, from the current price
and `Math.random()` cursor to the next ones: draw
`z = generateRandomNumbers()[0]`, form
`movement = drift + diffusion * z`, optionally add a Merton jump
(`λ = 1.0`, `μ_J = -0.1`, `σ_J = 0.2`: one uniform decides
`Math.random() < λ·dt`, a jump consumes one further uniform for its own
standard normal), and multiply the price by `exp(movement)`. -/
def simStep (c : MCConfig) (u : ℕ → ℝ) (price : ℝ) (s : ℕ) : ℝ × ℕ :=
  let drift := (c.r - 0.5 * c.sigma * c.sigma) * c.dt
  let diffusion := c.sigma * Real.sqrt c.dt
  let gen := generateRandomNumbers c u s
  let z := gen.1.headD 0
  let s1 := gen.2
  let movement := drift + diffusion * z
  if c.jumpDiffusion then
    if u s1 < 1.0 * c.dt then
      let jumpSize := -0.1 + 0.2 * normalInverse (u (s1 + 1))
      (price * Real.exp (movement + jumpSize), s1 + 2)
    else
      (price * Real.exp movement, s1 + 1)
  else
    (price * Real.exp movement, s1)

/-- Price and `Math.random()` cursor after `k` steps of one simulated path:
`pathStateRec c u s 0 = (S0, s)` and each further step applies `simStep`. -/
def pathStateRec (c : MCConfig) (u : ℕ → ℝ) (s : ℕ) : ℕ → ℝ × ℕ
  | 0 => (c.S0, s)
  | k + 1 =>
      let prev := pathStateRec c u s k
      simStep c u prev.1 prev.2

/-- One path of the `sim` loop of `simulatePaths`: the `steps + 1` prices
`paths[sim][0] = S0, …, paths[sim][steps]`, together with the advanced
`Math.random()` cursor. -/
def simPath (c : MCConfig) (u : ℕ → ℝ) (s : ℕ) : List ℝ × ℕ :=
  ((List.range (c.steps + 1)).map (fun k => (pathStateRec c u s k).1),
    (pathStateRec c u s c.steps).2)

/-- The `sim` loop of `simulatePaths`: generate `m` paths one after the
other, threading the `Math.random()` cursor through. -/
def simPathsGo (c : MCConfig) (u : ℕ → ℝ) : ℕ → ℕ → List (List ℝ) × ℕ
  | 0, cur => ([], cur)
  | m + 1, cur =>
      let first := simPath c u cur
      let rest := simPathsGo c u m first.2
      (first.1 :: rest.1, rest.2)

/-- `MonteCarloSimulation.simulatePaths`: `simulations` paths generated one
after the other, each of `steps + 1` prices. -/
def simulatePaths (c : MCConfig) (u : ℕ → ℝ) (s : ℕ) : List (List ℝ) × ℕ :=
  simPathsGo c u c.simulations s

end MonteCarloSimulation

/-- A constructed `AsianOption` instance (`AsianOption.js`). -/
structure AsianOption extends MCConfig where
  averageType : AvgType := AvgType.arithmetic

namespace AsianOption

/-- Per-path payoff of `AsianOption.calculatePrice`: arithmetic average
`path.reduce((a, b) => a + b) / path.length` or geometric average
`exp(path.reduce((a, b) => a + log(b)) / path.length)` of all sampled
prices (including `S0`), then the call/put payoff against the strike. -/
def payoff (o : AsianOption) (path : List ℝ) : ℝ :=
  let average :=
    match o.averageType with
    | AvgType.arithmetic => path.sum / (path.length : ℝ)
    | AvgType.geometric => Real.exp ((path.map Real.log).sum / (path.length : ℝ))
  match o.type with
  | OptType.call => max (average - o.K) 0
  | OptType.put => max (o.K - average) 0

/-- `AsianOption.calculatePrice` on a given path set. -/
def calculatePrice (o : AsianOption) (paths : List (List ℝ)) : PricingResult :=
  presentValueResult o.r o.T (paths.map o.payoff) paths

end AsianOption

/-- A constructed `BarrierOption` instance (`BarrierOption.js`), after its
constructor has run. -/
structure BarrierOption extends MCConfig where
  barrier : ℝ
  barrierType : BarrierType := BarrierType.upOut

namespace BarrierOption

/-- The validating constructor of `BarrierOption.js`.
`barrierGiven` is the `params.barrier` argument (`none` when absent):
`this.barrier = params.barrier || this.K * 1.2`, so an absent **or
JavaScript-falsy (zero)** barrier is replaced by the default `1.2·K`
before the barrier/spot validation runs.  An up barrier at or below spot
throws `'Up barrier must be above spot price'`; a down barrier at or above
spot throws `'Down barrier must be below spot price'`. -/
def construct (c : MCConfig) (barrierGiven : Option ℝ)
    (barrierType : BarrierType) : Except String BarrierOption :=
  let barrier :=
    match barrierGiven with
    | none => c.K * 1.2
    | some b => if b = 0 then c.K * 1.2 else b
  if barrierType.isUp ∧ barrier ≤ c.S0 then
    Except.error "Up barrier must be above spot price"
  else if (!barrierType.isUp) = true ∧ c.S0 ≤ barrier then
    Except.error "Down barrier must be below spot price"
  else
    Except.ok { toMCConfig := c, barrier := barrier, barrierType := barrierType }

/-- `BarrierOption.checkBarrierHit`: scan the whole path for any price
`>=` the barrier (up types) or `<=` the barrier (down types). -/
def checkBarrierHit (o : BarrierOption) (path : List ℝ) : Bool :=
  if o.barrierType.isUp then
    path.any (fun price => decide (o.barrier ≤ price))
  else
    path.any (fun price => decide (price ≤ o.barrier))

/-- Per-path payoff of `BarrierOption.calculatePrice`: out options pay the
vanilla payoff only when the barrier was never hit, in options only when it
was hit; otherwise the payoff stays `0`. -/
def payoff (o : BarrierOption) (path : List ℝ) : ℝ :=
  let isBarrierHit := o.checkBarrierHit path
  if o.barrierType.isOut then
    if isBarrierHit then 0 else vanillaPayoff o.type o.K path
  else
    if isBarrierHit then vanillaPayoff o.type o.K path else 0

/-- `BarrierOption.calculatePrice` on a given path set. -/
def calculatePrice (o : BarrierOption) (paths : List (List ℝ)) : PricingResult :=
  presentValueResult o.r o.T (paths.map o.payoff) paths

/-- The shifted barrier of `adjustForContinuousBarrier`:
`adjustment = 0.5826 * σ * sqrt(T / steps)`; up barriers are multiplied by
`exp(-adjustment)`, down barriers by `exp(adjustment)`. -/
def adjustedBarrier (o : BarrierOption) : ℝ :=
  let adjustment := 0.5826 * o.sigma * Real.sqrt (o.T / (o.steps : ℝ))
  if o.barrierType.isUp then o.barrier * Real.exp (-adjustment)
  else o.barrier * Real.exp adjustment

/-- `BarrierOption.adjustForContinuousBarrier`: the source temporarily
overwrites `this.barrier` with the shifted barrier, reprices the **same**
path set `result.paths` with `calculatePrice`, and restores the original
barrier; the net effect is a pure re-evaluation with the substituted
barrier. -/
def adjustForContinuousBarrier (o : BarrierOption) (result : PricingResult) :
    PricingResult :=
  calculatePrice { o with barrier := o.adjustedBarrier } result.paths

end BarrierOption

/-- A constructed `LookbackOption` instance (`LookbackOption.js`). -/
structure LookbackOption extends MCConfig where
  lookbackType : LookType := LookType.fixed

/-- `Math.max(...path)` on a non-empty spread (the source only applies it to
simulated paths, which always hold at least one price). -/
def listMax : List ℝ → ℝ
  | [] => 0
  | x :: xs => xs.foldl max x

/-- `Math.min(...path)` on a non-empty spread. -/
def listMin : List ℝ → ℝ
  | [] => 0
  | x :: xs => xs.foldl min x

namespace LookbackOption

/-- Per-path payoff of `LookbackOption.calculatePrice`: fixed strike pays
the path extremum against the strike, floating strike pays the terminal
price against the opposite path extremum. -/
def payoff (o : LookbackOption) (path : List ℝ) : ℝ :=
  match o.lookbackType, o.type with
  | LookType.fixed, OptType.call => max (listMax path - o.K) 0
  | LookType.fixed, OptType.put => max (o.K - listMin path) 0
  | LookType.floating, OptType.call => max (path.getLastD 0 - listMin path) 0
  | LookType.floating, OptType.put => max (listMax path - path.getLastD 0) 0

/-- `LookbackOption.calculatePrice` on a given path set. -/
def calculatePrice (o : LookbackOption) (paths : List (List ℝ)) : PricingResult :=
  presentValueResult o.r o.T (paths.map o.payoff) paths

/-- `LookbackOption.adjustForContinuousMonitoring`: multiplies every entry
of `result.payoffs` (the already-discounted payoffs) by
`exp(0.5826 * σ * sqrt(T / steps))` — the same factor for calls and puts —
and rebuilds price and confidence interval from the scaled payoffs; the
paths are passed through untouched. -/
def adjustForContinuousMonitoring (o : LookbackOption) (result : PricingResult) :
    PricingResult :=
  let adjustment := 0.5826 * o.sigma * Real.sqrt (o.T / (o.steps : ℝ))
  let adjustedPayoffs := result.payoffs.map (fun payoff => payoff * Real.exp adjustment)
  { price := listMean adjustedPayoffs
    confidence := calculateConfidenceInterval adjustedPayoffs
    paths := result.paths
    payoffs := adjustedPayoffs }

end LookbackOption

/-- The accumulating `sum += x[k] * y[k]` loops of `cholesky`: a dot
product starting from `0`; `zipWith` truncates at the shorter list, which
matches the loop bound `k < j`. -/
def dotJ (xs ys : List JNum) : JNum :=
  (List.zipWith JNum.jsMul xs ys).foldl JNum.jsAdd (JNum.fin 0)

/-- `matrix[i][j]` with JavaScript semantics: an out-of-range access gives
`undefined`, which is NaN once it enters arithmetic. -/
def matEntry (A : List (List JNum)) (i j : ℕ) : JNum :=
  (A.getD i []).getD j JNum.nan

/-- Row `i` of `L` as computed by the inner `j` loop of `cholesky`
(`matrixOperations.js`): entries `j < i` are
`(A[i][j] - Σ_{k<j} L[i][k]·L[j][k]) / L[j][j]`, computed left to right,
and the diagonal entry is `sqrt(A[i][i] - Σ_{k<i} L[i][k]²)` via
`Math.sqrt` (NaN on a negative argument).  `rows` holds the previously
completed rows, row `j` stored as its first `j + 1` entries. -/
def choleskyRow (A : List (List JNum)) (rows : List (List JNum)) (i : ℕ) :
    List JNum :=
  let pre := (List.range i).foldl
    (fun acc j =>
      let rowj := rows.getD j []
      acc ++ [JNum.jsDiv (JNum.jsSub (matEntry A i j) (dotJ acc rowj))
        (rowj.getD j JNum.nan)])
    []
  pre ++ [JNum.jsSqrt (JNum.jsSub (matEntry A i i) (dotJ pre pre))]

/-- `cholesky` from `matrixOperations.js`.  After computing row `i` the
source checks `if (L[i][i] <= 0) throw new Error('Matrix is not positive
definite')` — the JavaScript `<=` comparison, which is `false` whenever
`L[i][i]` is NaN.  The returned rows are padded with the zeros the
`Array(n).fill(0)` initialization left above the diagonal. -/
def cholesky (A : List (List JNum)) : Except String (List (List JNum)) :=
  let n := A.length
  let rowsE := (List.range n).foldl
    (fun (acc : Except String (List (List JNum))) i =>
      match acc with
      | Except.error e => Except.error e
      | Except.ok rows =>
          let row := choleskyRow A rows i
          if JNum.jsLe (row.getD i JNum.nan) (JNum.fin 0) then
            Except.error "Matrix is not positive definite"
          else Except.ok (rows ++ [row]))
    (Except.ok [])
  match rowsE with
  | Except.error e => Except.error e
  | Except.ok rows =>
      Except.ok (rows.map (fun (row : List JNum) =>
        row ++ List.replicate (n - row.length) (JNum.fin 0)))

/-- The `{var95, sharpeRatio, sortinoRatio}` record returned by
`calculateRiskMetrics`. -/
structure RiskMetrics where
  var95 : JNum
  sharpeRatio : JNum
  sortinoRatio : JNum

namespace MonteCarloSimulation

/-- `MonteCarloSimulation.calculateRiskMetrics`: terminal-price log-returns
`ln(S_T / S0)`; VaR as the negated nearest-rank 5th percentile of the
ascending sort; Sharpe as `(mean - r) / stddev` with an `n − 1` sample
standard deviation; Sortino as the same numerator over the downside
deviation `sqrt(Σ_{x<0} x² / #negatives)`.  The two final divisions are
JavaScript divisions: with no negative returns the downside deviation is
`sqrt(0 / 0) = NaN` and the Sortino ratio is NaN; the function never
throws, it returns whatever numbers result. -/
def calculateRiskMetrics (c : MCConfig) (paths : List (List ℝ)) : RiskMetrics :=
  let prices := paths.map (fun path => path.getLastD 0)
  let returns := prices.map (fun price => Real.log (price / c.S0))
  let sorted := returns.insertionSort (fun a b => a ≤ b)
  let idx := (Int.floor ((0.05 : ℝ) * (returns.length : ℝ))).toNat
  let var95 := match sorted.get? idx with
    | some v => JNum.fin (-v)
    | none => JNum.nan
  let meanReturn := listMean returns
  let stdDev := JNum.jsSqrt (JNum.jsDiv
    (JNum.fin ((returns.map (fun b => (b - meanReturn) ^ 2)).sum))
    (JNum.fin ((returns.length : ℝ) - 1)))
  let sharpeRatio := JNum.jsDiv (JNum.fin (meanReturn - c.r)) stdDev
  let negativeReturns := returns.filter (fun x => decide (x < 0))
  let downstdDev := JNum.jsSqrt (JNum.jsDiv
    (JNum.fin ((negativeReturns.map (fun b => b ^ 2)).sum))
    (JNum.fin (negativeReturns.length : ℝ)))
  let sortinoRatio := JNum.jsDiv (JNum.fin (meanReturn - c.r)) downstdDev
  { var95 := var95, sharpeRatio := sharpeRatio, sortinoRatio := sortinoRatio }

end MonteCarloSimulation

/-- Constructor-argument object of `MonteCarloSimulation`, with JavaScript
semantics: a named numeric parameter is `none` when the corresponding
property is absent from the argument object, in which case destructuring
binds `undefined` to it. -/
structure MCParamsJ where
  spot : Option JNum
  strike : Option JNum
  volatility : Option JNum
  riskFreeRate : Option JNum
  maturity : Option JNum
  steps : ℕ
  simulations : ℕ
  useAntithetic : Bool
  useStratified : Bool
  jumpDiffusion : Bool
  type : OptType

/-- A `MonteCarloSimulation` instance with JavaScript-faithful numeric
fields; an absent constructor argument leaves the field `undefined`, which
behaves as NaN in every numeric use, so it is represented as `JNum.nan`. -/
structure SimJ where
  S0 : JNum
  K : JNum
  sigma : JNum
  r : JNum
  T : JNum
  dt : JNum
  steps : ℕ
  simulations : ℕ
  useAntithetic : Bool
  useStratified : Bool
  jumpDiffusion : Bool
  type : OptType

/-- `undefined` entering arithmetic coerces to NaN. -/
def undefinedToNan : Option JNum → JNum
  | some x => x
  | none => JNum.nan

/-- The constructor of `MonteCarloSimulation.js` as a function of its
parameter object (`this.dt = this.T / this.steps`). -/
def mkSimJ (p : MCParamsJ) : SimJ :=
  { S0 := undefinedToNan p.spot
    K := undefinedToNan p.strike
    sigma := undefinedToNan p.volatility
    r := undefinedToNan p.riskFreeRate
    T := undefinedToNan p.maturity
    dt := JNum.jsDiv (undefinedToNan p.maturity) (JNum.fin (p.steps : ℝ))
    steps := p.steps
    simulations := p.simulations
    useAntithetic := p.useAntithetic
    useStratified := p.useStratified
    jumpDiffusion := p.jumpDiffusion
    type := p.type }

/-- The object literal `{...this, spot: v}` built by `calculateGreeks`, as
seen by the constructor's destructuring.  The spread copies the instance's
own properties, whose names are `S0, K, sigma, r, T, dt, steps,
simulations, useAntithetic, useStratified, jumpDiffusion, type` — so of
the constructor's named parameters only `steps`, `simulations`, the three
flags and `type` are present; `strike`, `volatility`, `riskFreeRate` and
`maturity` are absent (the spread provides `K`, `sigma`, `r`, `T`
instead, names the constructor never reads), and `spot` is present only
because the literal sets it explicitly. -/
def spreadWith (s : SimJ) (spot : JNum) : MCParamsJ :=
  { spot := some spot
    strike := none
    volatility := none
    riskFreeRate := none
    maturity := none
    steps := s.steps
    simulations := s.simulations
    useAntithetic := s.useAntithetic
    useStratified := s.useStratified
    jumpDiffusion := s.jumpDiffusion
    type := s.type }

/-- `new MonteCarloSimulation({...this, spot: this.S0 * (1 + h)})` with
`h = 0.01` — the `spotUp` simulation of `calculateGreeks`. -/
def spotUpSim (s : SimJ) : SimJ :=
  mkSimJ (spreadWith s (JNum.jsMul s.S0 (JNum.fin (1 + 0.01))))

/-- `new MonteCarloSimulation({...this, spot: this.S0 * (1 - h)})` — the
`spotDown` simulation of `calculateGreeks`. -/
def spotDownSim (s : SimJ) : SimJ :=
  mkSimJ (spreadWith s (JNum.jsMul s.S0 (JNum.fin (1 - 0.01))))

/-- JavaScript `ToNumber` coercion of a `calculatePrice` return value.
`calculatePrice` returns the plain object `{price, confidence, paths,
payoffs}`, and `calculateGreeks` feeds these objects directly into `-` and
`*`; coercing a plain object to a number (via `valueOf`/`toString`, giving
the string `"[object Object]"`) yields NaN. -/
def resultToNumber (_result : PricingResult) : JNum := JNum.nan

/-- The `{delta, gamma, theta, vega, rho}` record of `calculateGreeks`. -/
structure GreeksJ where
  delta : JNum
  gamma : JNum
  theta : JNum
  vega : JNum
  rho : JNum

namespace MonteCarloSimulation

/-- `MonteCarloSimulation.calculateGreeks` with `h = 0.01`.  The pricing
results of the base run and of each bumped run are taken as arguments
(each is produced by a fresh `simulatePaths` call on its own
`Math.random()` draws).  Note that `gamma` calls
`spotUp.calculatePrice(spotUp.simulatePaths())` and
`spotDown.calculatePrice(spotDown.simulatePaths())` **again**, so it uses a
second, freshly simulated pair of results (`resUpGamma`, `resDownGamma`),
not the pair already used for `delta`. -/
def calculateGreeks (s : SimJ)
    (resBase resUpDelta resDownDelta resUpGamma resDownGamma
      resTheta resVega resRho : PricingResult) : GreeksJ :=
  let h : ℝ := 0.01
  { delta := JNum.jsDiv
      (JNum.jsSub (resultToNumber resUpDelta) (resultToNumber resDownDelta))
      (JNum.jsMul (JNum.jsMul (JNum.fin 2) (JNum.fin h)) s.S0)
    gamma := JNum.jsDiv
      (JNum.jsAdd
        (JNum.jsSub (resultToNumber resUpGamma)
          (JNum.jsMul (JNum.fin 2) (resultToNumber resBase)))
        (resultToNumber resDownGamma))
      (JNum.jsMul (JNum.jsMul (JNum.jsMul (JNum.fin h) (JNum.fin h)) s.S0) s.S0)
    theta := JNum.jsNeg (JNum.jsDiv
      (JNum.jsSub (resultToNumber resTheta) (resultToNumber resBase))
      (JNum.jsMul (JNum.fin h) s.T))
    vega := JNum.jsDiv
      (JNum.jsSub (resultToNumber resVega) (resultToNumber resBase))
      (JNum.jsMul (JNum.fin h) s.sigma)
    rho := JNum.jsDiv
      (JNum.jsSub (resultToNumber resRho) (resultToNumber resBase))
      (JNum.jsMul (JNum.fin h) s.r) }

end MonteCarloSimulation

/-! ## Example instances used by witnesses and counterexamples -/

/-- A baseline simulation configuration (spot 100, strike 100, volatility
0.2, rate 0.05, maturity 1, 4 steps, 1 path). -/
def exampleConfig : MCConfig :=
  { S0 := 100, K := 100, sigma := 0.2, r := 0.05, T := 1, steps := 4,
    simulations := 1 }

/-- An up-and-out barrier option over `exampleConfig` with barrier 120. -/
def exampleUpOut : BarrierOption :=
  { toMCConfig := exampleConfig, barrier := 120,
    barrierType := BarrierType.upOut }

/-- A fixed-strike lookback call over `exampleConfig`. -/
def exampleLookbackCall : LookbackOption :=
  { toMCConfig := exampleConfig, lookbackType := LookType.fixed }

/-- The same lookback option with the put flag instead of the call flag. -/
def exampleLookbackPut : LookbackOption :=
  { exampleLookbackCall with type := OptType.put }

/-- An arithmetic-average Asian call over `exampleConfig`. -/
def exampleAsian : AsianOption :=
  { toMCConfig := exampleConfig, averageType := AvgType.arithmetic }

/-- A one-path pricing result with a single discounted payoff of `1`. -/
def exampleResult : PricingResult :=
  { price := 1, confidence := { mean := 1, lower := 1, upper := 1 },
    paths := [[1]], payoffs := [1] }

/-- A `SimJ` with the baseline finite parameters and rate zero. -/
def exampleSimJ : SimJ :=
  { S0 := JNum.fin 100, K := JNum.fin 100, sigma := JNum.fin 0.2,
    r := JNum.fin 0, T := JNum.fin 1, dt := JNum.fin 0.25, steps := 4,
    simulations := 1, useAntithetic := true, useStratified := true,
    jumpDiffusion := false, type := OptType.call }

/-- A three-path configuration with both variance-reduction flags on. -/
def c6Config : MCConfig := { exampleConfig with simulations := 3 }

/-- A constant `Math.random()` stream of `1/2`. -/
def c6Stream : ℕ → ℝ := fun _ => 1 / 2

/-- `Except.isOk` written out, to state that a construction did not throw. -/
def isOkE {α : Type} : Except String α → Bool
  | Except.ok _ => true
  | Except.error _ => false

/-! ## Helper lemmas -/

theorem jsAdd_nan_right (x : JNum) : JNum.jsAdd x JNum.nan = JNum.nan := by
  cases x <;> rfl

theorem jsMul_nan_right (x : JNum) : JNum.jsMul x JNum.nan = JNum.nan := by
  cases x <;> rfl

theorem jsDiv_nan_left (x : JNum) : JNum.jsDiv JNum.nan x = JNum.nan := by
  cases x <;> rfl

theorem jsDiv_nan_right (x : JNum) : JNum.jsDiv x JNum.nan = JNum.nan := by
  cases x <;> rfl

theorem jsSub_nan_nan : JNum.jsSub JNum.nan JNum.nan = JNum.nan := rfl

theorem sum_map_mul (xs : List ℝ) (e : ℝ) :
    (xs.map (fun p => p * e)).sum = xs.sum * e := by
  induction xs with
  | nil => simp
  | cons x xs ih => simp [ih]; ring

/-- The shared `calculatePrice` tail: the reported price is the mean of the
reported (discounted) payoffs, and also the mean of the confidence
interval built from them. -/
theorem presentValueResult_spec (r T : ℝ) (payoffs : List ℝ)
    (paths : List (List ℝ)) :
    (presentValueResult r T payoffs paths).price
        = listMean ((presentValueResult r T payoffs paths).payoffs)
      ∧ (presentValueResult r T payoffs paths).price
        = (presentValueResult r T payoffs paths).confidence.mean := by
  have hmean : listMean (payoffs.map (fun p => p * Real.exp (-(r * T))))
      = listMean payoffs * Real.exp (-(r * T)) := by
    unfold listMean
    rw [sum_map_mul, List.length_map]
    ring
  constructor
  · show listMean payoffs * Real.exp (-(r * T))
      = listMean (payoffs.map (fun p => p * Real.exp (-(r * T))))
    exact hmean.symm
  · show listMean payoffs * Real.exp (-(r * T))
      = listMean (payoffs.map (fun p => p * Real.exp (-(r * T))))
    exact hmean.symm

/-- Unfolded form of the payoff list of `BarrierOption.calculatePrice`. -/
theorem barrier_calculatePrice_payoffs (o : BarrierOption)
    (paths : List (List ℝ)) :
    (o.calculatePrice paths).payoffs
      = paths.map (fun p => o.payoff p * Real.exp (-(o.r * o.T))) := by
  simp [BarrierOption.calculatePrice, presentValueResult, List.map_map,
    Function.comp]

/-! ## Claim theorems -/

/-- C1: the claim says `calculateGreeks` computes Delta as a central
difference of two re-simulated prices with spot bumped by `±1%` and all
other parameters (strike, volatility, rate, maturity, steps, simulations)
carried over unchanged, Gamma reusing Delta's two bumped prices.  The code
violates this: the bumped simulations are built from `{...this, spot: …}`,
whose property names (`S0, K, sigma, r, T`) do not match the constructor's
parameter names, so strike, volatility, rate and maturity are `undefined`
(NaN) in every bumped simulation; moreover the finite differences subtract
the `calculatePrice` result **objects**, so delta and gamma evaluate to NaN
for every configuration (and gamma re-simulates fresh bumped paths rather
than reusing Delta's prices). -/
theorem c1_greeks_bump_loses_params_and_is_nan (s : SimJ)
    (resBase resUpDelta resDownDelta resUpGamma resDownGamma
      resTheta resVega resRho : PricingResult) :
    (spotUpSim s).K = JNum.nan
      ∧ (spotUpSim s).sigma = JNum.nan
      ∧ (spotUpSim s).r = JNum.nan
      ∧ (spotUpSim s).T = JNum.nan
      ∧ (spotDownSim s).K = JNum.nan
      ∧ (MonteCarloSimulation.calculateGreeks s resBase resUpDelta
          resDownDelta resUpGamma resDownGamma resTheta resVega
          resRho).delta = JNum.nan
      ∧ (MonteCarloSimulation.calculateGreeks s resBase resUpDelta
          resDownDelta resUpGamma resDownGamma resTheta resVega
          resRho).gamma = JNum.nan := by
  refine ⟨rfl, rfl, rfl, rfl, rfl, ?_, ?_⟩
  · simp only [MonteCarloSimulation.calculateGreeks, resultToNumber,
      jsSub_nan_nan, jsDiv_nan_left]
  · simp only [MonteCarloSimulation.calculateGreeks, resultToNumber,
      jsMul_nan_right, jsSub_nan_nan, jsAdd_nan_right, jsDiv_nan_left]

/-- C5: the claim says `cholesky` signals a "not positive definite"
failure the first time a diagonal entry of `L` would be non-positive,
including the square root of a negative number.  The code contradicts this
(and its own doc comment and error message): on the symmetric,
non-positive-definite input `[[-1]]` the pivot is `Math.sqrt(-1) = NaN`,
the JavaScript check `NaN <= 0` is `false`, and the function returns
`[[NaN]]` without signalling any failure. -/
theorem c5_cholesky_negative_pivot_unsignalled :
    cholesky [[JNum.fin (-1)]] = Except.ok [[JNum.nan]] := by
  have hneg : ((-1 : ℝ) + -0) < 0 := by norm_num
  simp [cholesky, choleskyRow, matEntry, dotJ, JNum.jsSub, JNum.jsAdd,
    JNum.jsNeg, JNum.jsSqrt, JNum.jsLe, List.range_succ, hneg]

/-- For an up-type barrier option with positive barrier, volatility,
maturity and step count, the shifted barrier is strictly **below** the
original barrier (it moves toward the spot, which validation keeps below
an up barrier). -/
theorem adjustedBarrier_up_lt (o : BarrierOption)
    (hup : o.barrierType.isUp = true) (hb : 0 < o.barrier) (hs : 0 < o.sigma)
    (hT : 0 < o.T) (hn : 0 < o.steps) :
    o.adjustedBarrier < o.barrier := by
  have hadj : 0 < 0.5826 * o.sigma * Real.sqrt (o.T / (o.steps : ℝ)) := by
    apply mul_pos (mul_pos (by norm_num) hs)
    exact Real.sqrt_pos.mpr (div_pos hT (by exact_mod_cast hn))
  unfold BarrierOption.adjustedBarrier
  rw [if_pos hup]
  calc o.barrier * Real.exp (-(0.5826 * o.sigma * Real.sqrt (o.T / (o.steps : ℝ))))
      < o.barrier * 1 := by
        apply mul_lt_mul_of_pos_left _ hb
        exact Real.exp_lt_one_iff.mpr (by linarith)
    _ = o.barrier := mul_one _

/-- For a down-type barrier option with positive parameters, the shifted
barrier is strictly **above** the original barrier (again toward spot). -/
theorem adjustedBarrier_down_gt (o : BarrierOption)
    (hdown : o.barrierType.isUp = false) (hb : 0 < o.barrier)
    (hs : 0 < o.sigma) (hT : 0 < o.T) (hn : 0 < o.steps) :
    o.barrier < o.adjustedBarrier := by
  have hadj : 0 < 0.5826 * o.sigma * Real.sqrt (o.T / (o.steps : ℝ)) := by
    apply mul_pos (mul_pos (by norm_num) hs)
    exact Real.sqrt_pos.mpr (div_pos hT (by exact_mod_cast hn))
  unfold BarrierOption.adjustedBarrier
  rw [if_neg (by simp [hdown])]
  have h1 : (1 : ℝ) < Real.exp (0.5826 * o.sigma * Real.sqrt (o.T / (o.steps : ℝ))) := by
    calc (1 : ℝ) = Real.exp 0 := Real.exp_zero.symm
      _ < _ := Real.exp_lt_exp.mpr hadj
  exact (lt_mul_iff_one_lt_right hb).mpr h1

/-- C2 counterexample: the claim says the barrier shift is chosen outward
from spot (up barriers moved up).  On the concrete up-and-out option with
spot 100 and barrier 120, the code multiplies the barrier by
`exp(-0.5826·σ·√(T/n))`, moving it strictly **down**, toward spot. -/
theorem c2_counterexample :
    exampleUpOut.barrierType.isUp = true
      ∧ BarrierOption.adjustedBarrier exampleUpOut < exampleUpOut.barrier :=
  ⟨rfl,
    adjustedBarrier_up_lt exampleUpOut rfl
      (by norm_num [exampleUpOut])
      (by norm_num [exampleUpOut, exampleConfig])
      (by norm_num [exampleUpOut, exampleConfig])
      (by norm_num [exampleUpOut, exampleConfig])⟩

/-- C2 (amended): `adjustForContinuousBarrier` shifts the barrier by
`exp(∓0.5826·σ·√(T/n))` with the sign chosen **inward toward spot**
(up barriers moved strictly down, down barriers strictly up), and
re-evaluates the payoffs on the same path set `result.paths` with the
temporarily substituted barrier — not by applying a scalar to the original
payoffs. -/
theorem c2_amended (o : BarrierOption) (result : PricingResult)
    (hb : 0 < o.barrier) (hs : 0 < o.sigma) (hT : 0 < o.T) (hn : 0 < o.steps) :
    (o.barrierType.isUp = true →
        o.adjustedBarrier
            = o.barrier * Real.exp (-(0.5826 * o.sigma * Real.sqrt (o.T / (o.steps : ℝ))))
          ∧ o.adjustedBarrier < o.barrier)
      ∧ (o.barrierType.isUp = false →
        o.adjustedBarrier
            = o.barrier * Real.exp (0.5826 * o.sigma * Real.sqrt (o.T / (o.steps : ℝ)))
          ∧ o.barrier < o.adjustedBarrier)
      ∧ BarrierOption.adjustForContinuousBarrier o result
          = BarrierOption.calculatePrice { o with barrier := o.adjustedBarrier }
              result.paths
      ∧ (BarrierOption.adjustForContinuousBarrier o result).payoffs
          = result.paths.map (fun p =>
              BarrierOption.payoff { o with barrier := o.adjustedBarrier } p
                * Real.exp (-(o.r * o.T))) := by
  refine ⟨?_, ?_, rfl, ?_⟩
  · intro hup
    constructor
    · unfold BarrierOption.adjustedBarrier
      rw [if_pos hup]
    · exact adjustedBarrier_up_lt o hup hb hs hT hn
  · intro hdown
    constructor
    · unfold BarrierOption.adjustedBarrier
      rw [if_neg (by simp [hdown])]
    · exact adjustedBarrier_down_gt o hdown hb hs hT hn
  · exact barrier_calculatePrice_payoffs _ _

/-- C2 witness: the amended claim evaluated on the concrete up-and-out
option `exampleUpOut` and the one-path result `exampleResult`. -/
theorem c2_witness :
    BarrierOption.adjustedBarrier exampleUpOut < exampleUpOut.barrier
      ∧ BarrierOption.adjustForContinuousBarrier exampleUpOut exampleResult
        = BarrierOption.calculatePrice
            { exampleUpOut with barrier := BarrierOption.adjustedBarrier exampleUpOut }
            exampleResult.paths :=
  ⟨((c2_amended exampleUpOut exampleResult
      (by norm_num [exampleUpOut])
      (by norm_num [exampleUpOut, exampleConfig])
      (by norm_num [exampleUpOut, exampleConfig])
      (by norm_num [exampleUpOut, exampleConfig])).1 rfl).2,
    (c2_amended exampleUpOut exampleResult
      (by norm_num [exampleUpOut])
      (by norm_num [exampleUpOut, exampleConfig])
      (by norm_num [exampleUpOut, exampleConfig])
      (by norm_num [exampleUpOut, exampleConfig])).2.2.1⟩

/-- C3 counterexample: the claim says the lookback continuous-monitoring
factor is `exp(±β·σ·√(T/n))` with the sign determined by the option type.
On two options identical except for the call/put flag the code produces
identical adjusted payoffs — the discounted payoff `1` becomes
`exp(+0.05826)` for the put exactly as for the call, and
`exp(0.05826) ≠ exp(-0.05826)`, so no type-dependent sign exists. -/
theorem c3_counterexample :
    (LookbackOption.adjustForContinuousMonitoring exampleLookbackPut
        exampleResult).payoffs
      = (LookbackOption.adjustForContinuousMonitoring exampleLookbackCall
          exampleResult).payoffs
    ∧ (LookbackOption.adjustForContinuousMonitoring exampleLookbackPut
        exampleResult).payoffs = [Real.exp 0.05826]
    ∧ Real.exp 0.05826 ≠ Real.exp (-0.05826) := by
  have hsqrt : Real.sqrt 4 = 2 := by
    rw [(by norm_num : (4 : ℝ) = 2 ^ 2), Real.sqrt_sq (by norm_num : (0 : ℝ) ≤ 2)]
  refine ⟨rfl, ?_, ?_⟩
  · show [(1 : ℝ) * Real.exp (0.5826 * exampleLookbackPut.sigma
        * Real.sqrt (exampleLookbackPut.T / (exampleLookbackPut.steps : ℝ)))]
      = [Real.exp 0.05826]
    norm_num [exampleLookbackPut, exampleLookbackCall, exampleConfig, hsqrt]
  · exact ne_of_gt (Real.exp_lt_exp.mpr (by norm_num))

/-- C3 (amended): `adjustForContinuousMonitoring` multiplies every
already-discounted payoff by `exp(+0.5826·σ·√(T/n))` — the **same** `+`
sign for calls and puts, the option type playing no role — and is a direct
multiplicative adjustment (the price is rebuilt as the mean of the scaled
payoffs, and the path set is passed through untouched, so no
barrier-substitution re-evaluation happens). -/
theorem c3_amended (o : LookbackOption) (result : PricingResult) (t : OptType) :
    (LookbackOption.adjustForContinuousMonitoring o result).payoffs
        = result.payoffs.map (fun p =>
            p * Real.exp (0.5826 * o.sigma * Real.sqrt (o.T / (o.steps : ℝ))))
      ∧ (LookbackOption.adjustForContinuousMonitoring o result).paths
        = result.paths
      ∧ (LookbackOption.adjustForContinuousMonitoring o result).price
        = listMean (LookbackOption.adjustForContinuousMonitoring o result).payoffs
      ∧ LookbackOption.adjustForContinuousMonitoring { o with type := t } result
        = LookbackOption.adjustForContinuousMonitoring o result :=
  ⟨rfl, rfl, rfl, rfl⟩

/-- C8 counterexample: the claim says an up barrier at or below spot is a
construction-time error.  Supplying the up barrier `0` (which is at or
below the spot 100) does **not** error: `params.barrier || this.K * 1.2`
treats `0` as falsy and silently replaces it with the default `120`, which
passes validation. -/
theorem c8_counterexample :
    isOkE (BarrierOption.construct exampleConfig (some 0) BarrierType.upOut)
      = true := by
  norm_num [BarrierOption.construct, isOkE, BarrierType.isUp, exampleConfig]

/-- C8 (amended): for any **nonzero** supplied barrier the claim holds as
stated — an up barrier at or below spot throws the named error
`'Up barrier must be above spot price'`, a down barrier at or above spot
throws `'Down barrier must be below spot price'`, and no error is thrown
when the up barrier strictly exceeds spot or the down barrier is strictly
below it.  (A supplied barrier of `0` is JavaScript-falsy and is replaced
by the default `1.2·K` before validation, so the original claim fails for
it; see the counterexample.) -/
theorem c8_amended (c : MCConfig) (b : ℝ) (bt : BarrierType) (hb : b ≠ 0) :
    (bt.isUp = true → b ≤ c.S0 →
        BarrierOption.construct c (some b) bt
          = Except.error "Up barrier must be above spot price")
      ∧ (bt.isUp = true → c.S0 < b →
        isOkE (BarrierOption.construct c (some b) bt) = true)
      ∧ (bt.isUp = false → c.S0 ≤ b →
        BarrierOption.construct c (some b) bt
          = Except.error "Down barrier must be below spot price")
      ∧ (bt.isUp = false → b < c.S0 →
        isOkE (BarrierOption.construct c (some b) bt) = true) := by
  refine ⟨?_, ?_, ?_, ?_⟩
  · intro h1 h2
    simp [BarrierOption.construct, hb, h1, h2]
  · intro h1 h2
    simp [BarrierOption.construct, isOkE, hb, h1, not_le.mpr h2]
  · intro h1 h2
    simp [BarrierOption.construct, hb, h1, h2, not_le.mpr]
  · intro h1 h2
    simp [BarrierOption.construct, isOkE, hb, h1, not_le.mpr h2]

/-- C8 witness: the amended claim at concrete inputs — the up barrier 90
below spot 100 errors with the named message, the up barrier 130 above
spot constructs successfully. -/
theorem c8_witness :
    BarrierOption.construct exampleConfig (some 90) BarrierType.upOut
        = Except.error "Up barrier must be above spot price"
      ∧ isOkE (BarrierOption.construct exampleConfig (some 130) BarrierType.upOut)
        = true :=
  ⟨(c8_amended exampleConfig 90 BarrierType.upOut (by norm_num)).1 rfl
      (by norm_num [exampleConfig]),
    (c8_amended exampleConfig 130 BarrierType.upOut (by norm_num)).2.1 rfl
      (by norm_num [exampleConfig])⟩

/-- C7: barrier breach is detected by scanning every price of the path
(`≥` barrier for up types, `≤` for down types); an out option's per-path
payoff is the vanilla payoff exactly when no breach occurred and `0` when
one did, an in option's the other way round; and `calculatePrice` applies
this per-path payoff, discounted, to every path of the set. -/
theorem c7_barrier_breach_scan_and_payoff (o : BarrierOption)
    (path : List ℝ) (paths : List (List ℝ)) :
    (o.barrierType.isUp = true →
        (o.checkBarrierHit path = true ↔ ∃ price ∈ path, o.barrier ≤ price))
      ∧ (o.barrierType.isUp = false →
        (o.checkBarrierHit path = true ↔ ∃ price ∈ path, price ≤ o.barrier))
      ∧ (o.barrierType.isOut = true →
          (o.checkBarrierHit path = false →
            o.payoff path = vanillaPayoff o.type o.K path)
          ∧ (o.checkBarrierHit path = true → o.payoff path = 0))
      ∧ (o.barrierType.isOut = false →
          (o.checkBarrierHit path = true →
            o.payoff path = vanillaPayoff o.type o.K path)
          ∧ (o.checkBarrierHit path = false → o.payoff path = 0))
      ∧ (o.calculatePrice paths).payoffs
        = paths.map (fun p => o.payoff p * Real.exp (-(o.r * o.T))) := by
  refine ⟨?_, ?_, ?_, ?_, barrier_calculatePrice_payoffs o paths⟩
  · intro hup
    simp [BarrierOption.checkBarrierHit, hup, List.any_eq_true]
  · intro hdown
    simp [BarrierOption.checkBarrierHit, hdown, List.any_eq_true]
  · intro hout
    constructor <;> intro hhit <;> simp [BarrierOption.payoff, hout, hhit]
  · intro hin
    constructor <;> intro hhit <;> simp [BarrierOption.payoff, hin, hhit]

/-- C7 witness: the characterization evaluated on the concrete up-and-out
option `exampleUpOut` and the one-point path `[1]`. -/
theorem c7_witness :
    (BarrierOption.checkBarrierHit exampleUpOut [1] = true
        ↔ ∃ price ∈ [(1 : ℝ)], exampleUpOut.barrier ≤ price)
      ∧ (BarrierOption.calculatePrice exampleUpOut [[1]]).payoffs
        = [[(1 : ℝ)]].map (fun p => BarrierOption.payoff exampleUpOut p
            * Real.exp (-(exampleUpOut.r * exampleUpOut.T))) :=
  ⟨(c7_barrier_breach_scan_and_payoff exampleUpOut [1] [[1]]).1 rfl,
    (c7_barrier_breach_scan_and_payoff exampleUpOut [1] [[1]]).2.2.2.2⟩

/-- C10: for every non-empty path set, each of the four payoff evaluators
(vanilla, Asian, Barrier, Lookback) returns a `PricingResult` whose price
equals the arithmetic mean of its returned discounted payoffs array and
also the mean field of its returned confidence interval, exactly in real
arithmetic. -/
theorem c10_price_is_mean_of_payoffs (c : MCConfig) (a : AsianOption)
    (b : BarrierOption) (l : LookbackOption) (paths : List (List ℝ))
    (hne : paths ≠ []) :
    ((MonteCarloSimulation.calculatePrice c paths).price
        = listMean (MonteCarloSimulation.calculatePrice c paths).payoffs
      ∧ (MonteCarloSimulation.calculatePrice c paths).price
        = (MonteCarloSimulation.calculatePrice c paths).confidence.mean)
      ∧ ((AsianOption.calculatePrice a paths).price
        = listMean (AsianOption.calculatePrice a paths).payoffs
      ∧ (AsianOption.calculatePrice a paths).price
        = (AsianOption.calculatePrice a paths).confidence.mean)
      ∧ ((BarrierOption.calculatePrice b paths).price
        = listMean (BarrierOption.calculatePrice b paths).payoffs
      ∧ (BarrierOption.calculatePrice b paths).price
        = (BarrierOption.calculatePrice b paths).confidence.mean)
      ∧ ((LookbackOption.calculatePrice l paths).price
        = listMean (LookbackOption.calculatePrice l paths).payoffs
      ∧ (LookbackOption.calculatePrice l paths).price
        = (LookbackOption.calculatePrice l paths).confidence.mean) :=
  ⟨presentValueResult_spec _ _ _ _, presentValueResult_spec _ _ _ _,
    presentValueResult_spec _ _ _ _, presentValueResult_spec _ _ _ _⟩

/-- C10 witness: the price/mean identities evaluated on concrete options
and the non-empty one-point path set `[[1]]`. -/
theorem c10_witness :
    (MonteCarloSimulation.calculatePrice exampleConfig [[1]]).price
        = listMean (MonteCarloSimulation.calculatePrice exampleConfig [[1]]).payoffs
      ∧ (AsianOption.calculatePrice exampleAsian [[1]]).price
        = (AsianOption.calculatePrice exampleAsian [[1]]).confidence.mean :=
  ⟨(c10_price_is_mean_of_payoffs exampleConfig exampleAsian exampleUpOut
      exampleLookbackCall [[1]] (List.cons_ne_nil _ _)).1.1,
    (c10_price_is_mean_of_payoffs exampleConfig exampleAsian exampleUpOut
      exampleLookbackCall [[1]] (List.cons_ne_nil _ _)).2.1.2⟩

/-- C9: the numerical degeneracies — Rho when the rate is zero, and the
Sortino ratio when no terminal log-return is negative — surface as
non-finite numeric values of `calculateGreeks` and `calculateRiskMetrics`
(both of which return plain records and never throw), not as structured
error conditions. -/
theorem c9_degeneracies_propagate_nonfinite (s : SimJ) (c : MCConfig)
    (paths : List (List ℝ))
    (resBase resUpDelta resDownDelta resUpGamma resDownGamma
      resTheta resVega resRho : PricingResult)
    (hr : s.r = JNum.fin 0)
    (hneg : ∀ path ∈ paths, 0 ≤ Real.log (path.getLastD 0 / c.S0)) :
    (MonteCarloSimulation.calculateGreeks s resBase resUpDelta resDownDelta
        resUpGamma resDownGamma resTheta resVega resRho).rho.isFinite = false
      ∧ (MonteCarloSimulation.calculateRiskMetrics c paths).sortinoRatio.isFinite
        = false := by
  constructor
  · simp only [MonteCarloSimulation.calculateGreeks, resultToNumber,
      jsSub_nan_nan, jsDiv_nan_left, JNum.isFinite]
  · have hfil : ((paths.map (fun path => path.getLastD 0)).map
        (fun price => Real.log (price / c.S0))).filter
          (fun x => decide (x < 0)) = [] := by
      rw [List.filter_eq_nil_iff]
      intro x hx
      simp only [List.map_map, List.mem_map, Function.comp] at hx
      obtain ⟨p, hp, rfl⟩ := hx
      simpa using not_lt.mpr (hneg p hp)
    simp only [MonteCarloSimulation.calculateRiskMetrics, hfil]
    norm_num [JNum.jsDiv, JNum.jsSqrt, JNum.isFinite, jsDiv_nan_right]

/-- C9 witness: the degeneracies evaluated at the rate-zero simulation
`exampleSimJ` and a path set whose only terminal log-return is `ln 1 = 0`
(so no return is negative). -/
theorem c9_witness :
    (MonteCarloSimulation.calculateGreeks exampleSimJ exampleResult
        exampleResult exampleResult exampleResult exampleResult exampleResult
        exampleResult exampleResult).rho.isFinite = false
      ∧ (MonteCarloSimulation.calculateRiskMetrics
          { exampleConfig with S0 := 1 } [[1]]).sortinoRatio.isFinite = false :=
  c9_degeneracies_propagate_nonfinite exampleSimJ
    { exampleConfig with S0 := 1 } [[1]] exampleResult exampleResult
    exampleResult exampleResult exampleResult exampleResult exampleResult
    exampleResult rfl
    (by
      intro p hp
      simp only [List.mem_singleton] at hp
      subst hp
      simp [exampleConfig])

theorem getD_map_range (f : ℕ → ℝ) {e i : ℕ} (hi : i < e) :
    ((List.range e).map f).getD i 0 = f i := by
  show (((List.range e).map f).get? i).getD 0 = f i
  rw [List.get?_map, List.get?_range hi]
  rfl

theorem effectiveDraws_length (c : MCConfig) (u : ℕ → ℝ) (s : ℕ) :
    (MonteCarloSimulation.effectiveDraws c u s).length
      = MonteCarloSimulation.effectiveSimulations c := by
  simp only [MonteCarloSimulation.effectiveDraws]
  split <;> simp

/-- C6: `generateRandomNumbers` builds its draws as the two flags dictate:
with stratification the i-th of the effective draws is
`normalInverse((i + U) / m_eff)` with `U` the next uniform; without it the
i-th effective draw is `normalInverse(U)`; with antithetic variates the
effective count is `⌈m/2⌉` (so stratification, when also on, applies to
the halved count), the draw list is concatenated with its negation and
truncated to `m`, mirroring entry `i` to `-`(entry `i - m_eff`); and the
returned array always has length exactly `m`. -/
theorem c6_generateRandomNumbers_construction (c : MCConfig) (u : ℕ → ℝ)
    (s : ℕ) :
    (MonteCarloSimulation.generateRandomNumbers c u s).1.length = c.simulations
      ∧ (c.useStratified = true →
          ∀ i, i < MonteCarloSimulation.effectiveSimulations c →
          (MonteCarloSimulation.effectiveDraws c u s).getD i 0
            = MonteCarloSimulation.normalInverse
                (((i : ℝ) + u (s + i))
                  / (MonteCarloSimulation.effectiveSimulations c : ℝ)))
      ∧ (c.useStratified = false →
          ∀ i, i < MonteCarloSimulation.effectiveSimulations c →
          (MonteCarloSimulation.effectiveDraws c u s).getD i 0
            = MonteCarloSimulation.normalInverse (u (s + i)))
      ∧ (c.useAntithetic = true →
          MonteCarloSimulation.effectiveSimulations c = (c.simulations + 1) / 2
          ∧ (MonteCarloSimulation.generateRandomNumbers c u s).1
              = (MonteCarloSimulation.effectiveDraws c u s
                  ++ (MonteCarloSimulation.effectiveDraws c u s).map
                      (fun x => -x)).take c.simulations
          ∧ (∀ i, MonteCarloSimulation.effectiveSimulations c ≤ i →
              i < c.simulations →
              (MonteCarloSimulation.generateRandomNumbers c u s).1.getD i 0
                = -((MonteCarloSimulation.generateRandomNumbers c u s).1.getD
                    (i - MonteCarloSimulation.effectiveSimulations c) 0)))
      ∧ (c.useAntithetic = false →
          MonteCarloSimulation.effectiveSimulations c = c.simulations
          ∧ (MonteCarloSimulation.generateRandomNumbers c u s).1
            = MonteCarloSimulation.effectiveDraws c u s) := by
  refine ⟨?_, ?_, ?_, ?_, ?_⟩
  · cases hA : c.useAntithetic with
    | false =>
        simp only [MonteCarloSimulation.generateRandomNumbers, hA,
          Bool.false_eq_true, if_false, effectiveDraws_length,
          MonteCarloSimulation.effectiveSimulations]
    | true =>
        have he : MonteCarloSimulation.effectiveSimulations c
            = (c.simulations + 1) / 2 := by
          unfold MonteCarloSimulation.effectiveSimulations
          rw [if_pos hA]
        simp only [MonteCarloSimulation.generateRandomNumbers, hA, if_true,
          List.length_take, List.length_append, List.length_map,
          effectiveDraws_length, he]
        omega
  · intro hS i hi
    simp only [MonteCarloSimulation.effectiveDraws, hS, if_true]
    exact getD_map_range _ hi
  · intro hS i hi
    simp only [MonteCarloSimulation.effectiveDraws, hS, Bool.false_eq_true,
      if_false]
    exact getD_map_range _ hi
  · intro hA
    have he : MonteCarloSimulation.effectiveSimulations c
        = (c.simulations + 1) / 2 := by
      unfold MonteCarloSimulation.effectiveSimulations
      rw [if_pos hA]
    have hz : (MonteCarloSimulation.effectiveDraws c u s).length
        = MonteCarloSimulation.effectiveSimulations c :=
      effectiveDraws_length c u s
    have hout : (MonteCarloSimulation.generateRandomNumbers c u s).1
        = (MonteCarloSimulation.effectiveDraws c u s
            ++ (MonteCarloSimulation.effectiveDraws c u s).map
                (fun x => -x)).take c.simulations := by
      simp only [MonteCarloSimulation.generateRandomNumbers, hA, if_true]
    refine ⟨he, hout, ?_⟩
    intro i hle hlt
    have hsub : i - MonteCarloSimulation.effectiveSimulations c
        < MonteCarloSimulation.effectiveSimulations c := by omega
    have hsubm : i - MonteCarloSimulation.effectiveSimulations c
        < c.simulations := by omega
    rw [hout]
    show ((((MonteCarloSimulation.effectiveDraws c u s)
        ++ (MonteCarloSimulation.effectiveDraws c u s).map
            (fun x => -x)).take c.simulations).get? i).getD 0
      = -(((((MonteCarloSimulation.effectiveDraws c u s)
        ++ (MonteCarloSimulation.effectiveDraws c u s).map
            (fun x => -x)).take c.simulations).get?
          (i - MonteCarloSimulation.effectiveSimulations c)).getD 0)
    rw [List.get?_take hlt, List.get?_take hsubm,
      List.get?_append_right (by rw [hz]; exact hle),
      List.get?_append (by rw [hz]; exact hsub), List.get?_map, hz]
    obtain ⟨v, hv⟩ : ∃ v, (MonteCarloSimulation.effectiveDraws c u s).get?
        (i - MonteCarloSimulation.effectiveSimulations c) = some v :=
      ⟨_, List.get?_eq_get (by rw [hz]; exact hsub)⟩
    rw [hv]
    rfl
  · intro hA
    constructor
    · unfold MonteCarloSimulation.effectiveSimulations
      rw [if_neg (by simp [hA])]
    · simp only [MonteCarloSimulation.generateRandomNumbers, hA,
        Bool.false_eq_true, if_false]

/-- C6 witness: the construction evaluated at three simulations with both
flags on (`m_eff = 2`): the output has length 3, the second effective draw
is the stratified `normalInverse((1 + U)/2)`, and entry 2 mirrors entry 0. -/
theorem c6_witness :
    (MonteCarloSimulation.generateRandomNumbers c6Config c6Stream 0).1.length
        = c6Config.simulations
      ∧ (MonteCarloSimulation.effectiveDraws c6Config c6Stream 0).getD 1 0
        = MonteCarloSimulation.normalInverse
            ((((1 : ℕ) : ℝ) + c6Stream (0 + 1))
              / (MonteCarloSimulation.effectiveSimulations c6Config : ℝ))
      ∧ (MonteCarloSimulation.generateRandomNumbers c6Config c6Stream 0).1.getD 2 0
        = -((MonteCarloSimulation.generateRandomNumbers c6Config c6Stream 0).1.getD
            (2 - MonteCarloSimulation.effectiveSimulations c6Config) 0) :=
  ⟨(c6_generateRandomNumbers_construction c6Config c6Stream 0).1,
    (c6_generateRandomNumbers_construction c6Config c6Stream 0).2.1 rfl 1
      (by decide),
    ((c6_generateRandomNumbers_construction c6Config c6Stream 0).2.2.2.1
        rfl).2.2 2 (by decide) (by decide)⟩

theorem simPathsGo_spec (c : MCConfig) (u : ℕ → ℝ) :
    ∀ m cur, (MonteCarloSimulation.simPathsGo c u m cur).1.length = m
      ∧ ∀ p ∈ (MonteCarloSimulation.simPathsGo c u m cur).1,
          ∃ s0, p = (MonteCarloSimulation.simPath c u s0).1 := by
  intro m
  induction m with
  | zero =>
      intro cur
      simp [MonteCarloSimulation.simPathsGo]
  | succ n ih =>
      intro cur
      simp only [MonteCarloSimulation.simPathsGo]
      constructor
      · simp [(ih _).1]
      · intro p hp
        rcases List.mem_cons.mp hp with h | h
        · exact ⟨cur, h⟩
        · exact (ih _).2 p h

/-- One step of `simulatePaths` in closed form: the new price multiplies
the old one by `exp(drift + diffusion·z [+ jump])` where `z` is the head
of a **fresh** `generateRandomNumbers` batch drawn at the current cursor,
and the cursor advances past that whole batch (plus the jump draws when
jump diffusion is on). -/
theorem simStep_spec (c : MCConfig) (u : ℕ → ℝ) (price : ℝ) (cur : ℕ) :
    (MonteCarloSimulation.simStep c u price cur).1
        = price * Real.exp ((c.r - 0.5 * c.sigma * c.sigma) * c.dt
            + c.sigma * Real.sqrt c.dt
              * (MonteCarloSimulation.generateRandomNumbers c u cur).1.headD 0
            + (if c.jumpDiffusion = true
                  ∧ u ((MonteCarloSimulation.generateRandomNumbers c u cur).2)
                    < 1.0 * c.dt
                then -0.1 + 0.2 * MonteCarloSimulation.normalInverse
                  (u ((MonteCarloSimulation.generateRandomNumbers c u cur).2 + 1))
                else 0))
      ∧ (MonteCarloSimulation.simStep c u price cur).2
        = (MonteCarloSimulation.generateRandomNumbers c u cur).2
          + (if c.jumpDiffusion = true
              then (if u ((MonteCarloSimulation.generateRandomNumbers c u cur).2)
                  < 1.0 * c.dt then 2 else 1)
              else 0) := by
  by_cases hJ : c.jumpDiffusion = true
  · by_cases hu : u ((MonteCarloSimulation.generateRandomNumbers c u cur).2)
        < 1.0 * c.dt
    · constructor <;> simp [MonteCarloSimulation.simStep, hJ, hu]
    · constructor <;> simp [MonteCarloSimulation.simStep, hJ, hu]
  · constructor <;> simp [MonteCarloSimulation.simStep, hJ]

theorem effectiveSimulations_pos (c : MCConfig) (hm : 1 ≤ c.simulations) :
    1 ≤ MonteCarloSimulation.effectiveSimulations c := by
  unfold MonteCarloSimulation.effectiveSimulations
  split <;> omega

/-- C4: `simulatePaths` yields `simulations` paths of `steps + 1` prices
each, every path starting at `S0`; each step of a path re-invokes
`generateRandomNumbers` at the then-current `Math.random()` cursor and
uses the head of that fresh batch as its standard normal, so the price
recurrence is `S_{t+Δt} = S_t · exp((r − σ²/2)Δt + σ√Δt·Z [+ jump])`;
the cursor moves past one whole freshly generated batch (of
`effectiveSimulations` uniforms, plus the jump draws when enabled) at
every single step — sampling is re-invoked per step, never pre-generated
for the whole path set. -/
theorem c4_per_step_fresh_resampling (c : MCConfig) (u : ℕ → ℝ) (s : ℕ)
    (k : ℕ) (hk : k < c.steps) (hm : 1 ≤ c.simulations) :
    (MonteCarloSimulation.simulatePaths c u s).1.length = c.simulations
      ∧ (∀ p ∈ (MonteCarloSimulation.simulatePaths c u s).1,
          p.length = c.steps + 1
            ∧ ∃ s0, p = (MonteCarloSimulation.simPath c u s0).1)
      ∧ (MonteCarloSimulation.simPath c u s).1.getD 0 0 = c.S0
      ∧ (MonteCarloSimulation.simPath c u s).1.getD (k + 1) 0
        = (MonteCarloSimulation.simPath c u s).1.getD k 0
          * Real.exp ((c.r - 0.5 * c.sigma * c.sigma) * c.dt
              + c.sigma * Real.sqrt c.dt
                * (MonteCarloSimulation.generateRandomNumbers c u
                    ((MonteCarloSimulation.pathStateRec c u s k).2)).1.headD 0
              + (if c.jumpDiffusion = true
                    ∧ u ((MonteCarloSimulation.generateRandomNumbers c u
                        ((MonteCarloSimulation.pathStateRec c u s k).2)).2)
                      < 1.0 * c.dt
                  then -0.1 + 0.2 * MonteCarloSimulation.normalInverse
                    (u ((MonteCarloSimulation.generateRandomNumbers c u
                        ((MonteCarloSimulation.pathStateRec c u s k).2)).2 + 1))
                  else 0))
      ∧ (MonteCarloSimulation.generateRandomNumbers c u
            ((MonteCarloSimulation.pathStateRec c u s k).2)).2
          = (MonteCarloSimulation.pathStateRec c u s k).2
            + MonteCarloSimulation.effectiveSimulations c
      ∧ (MonteCarloSimulation.pathStateRec c u s (k + 1)).2
          = (MonteCarloSimulation.generateRandomNumbers c u
              ((MonteCarloSimulation.pathStateRec c u s k).2)).2
            + (if c.jumpDiffusion = true
                then (if u ((MonteCarloSimulation.generateRandomNumbers c u
                    ((MonteCarloSimulation.pathStateRec c u s k).2)).2)
                      < 1.0 * c.dt then 2 else 1)
                else 0)
      ∧ (MonteCarloSimulation.pathStateRec c u s k).2
        < (MonteCarloSimulation.pathStateRec c u s (k + 1)).2 := by
  have hgd : ∀ j, j < c.steps + 1 →
      (MonteCarloSimulation.simPath c u s).1.getD j 0
        = (MonteCarloSimulation.pathStateRec c u s j).1 := by
    intro j hj
    simp only [MonteCarloSimulation.simPath]
    exact getD_map_range _ hj
  have hstate : MonteCarloSimulation.pathStateRec c u s (k + 1)
      = MonteCarloSimulation.simStep c u
          (MonteCarloSimulation.pathStateRec c u s k).1
          (MonteCarloSimulation.pathStateRec c u s k).2 := rfl
  have hstep := simStep_spec c u (MonteCarloSimulation.pathStateRec c u s k).1
    (MonteCarloSimulation.pathStateRec c u s k).2
  refine ⟨(simPathsGo_spec c u c.simulations s).1, ?_, ?_, ?_, rfl, ?_, ?_⟩
  · intro p hp
    obtain ⟨s0, rfl⟩ := (simPathsGo_spec c u c.simulations s).2 p hp
    exact ⟨by simp [MonteCarloSimulation.simPath], s0, rfl⟩
  · rw [hgd 0 (by omega)]
    rfl
  · rw [hgd (k + 1) (by omega), hgd k (by omega), hstate]
    exact hstep.1
  · rw [hstate]
    exact hstep.2
  · have he1 := effectiveSimulations_pos c hm
    rw [hstate, hstep.2]
    have hgen : (MonteCarloSimulation.generateRandomNumbers c u
        ((MonteCarloSimulation.pathStateRec c u s k).2)).2
          = (MonteCarloSimulation.pathStateRec c u s k).2
            + MonteCarloSimulation.effectiveSimulations c := rfl
    rw [hgen]
    split <;> omega

/-- C4 witness: the path-generation facts evaluated on the concrete
configuration (4 steps, 1 path) at step 0: the path set has one path and
the `Math.random()` cursor strictly advances across the first step. -/
theorem c4_witness :
    (MonteCarloSimulation.simulatePaths exampleConfig c6Stream 0).1.length
        = exampleConfig.simulations
      ∧ (MonteCarloSimulation.pathStateRec exampleConfig c6Stream 0 0).2
        < (MonteCarloSimulation.pathStateRec exampleConfig c6Stream 0 (0 + 1)).2 :=
  ⟨(c4_per_step_fresh_resampling exampleConfig c6Stream 0 0 (by decide)
      (by decide)).1,
    (c4_per_step_fresh_resampling exampleConfig c6Stream 0 0 (by decide)
      (by decide)).2.2.2.2.2.2⟩
